import Mathlib

/-!
Shallow embedding of the Steeleye selectable-list widget
(src/Steeleye-Frontend-Assignment/List.jsx and the row component
WrappedSingleListItem from the write-up shipped with the repository).

The widget consists of:
- WrappedListComponent: owns selectedIndex state (useState(null)),
  resets it on every change of the items reference (useEffect [items]),
  exposes one stable click handler (useCallback with empty deps),
  renders nothing for null/empty items, otherwise one SingleListItem
  per entry keyed by the entry id;
- WrappedSingleListItem: a pure row rendering an li whose background is
  green when isSelected and red otherwise, with a deferred onClick thunk
  invoking onClickHandler(index); it is wrapped in memo.
-/

namespace Steeleye

/-- One data record of the list: the source requires id and text strings
(WrappedListComponent.propTypes). -/
structure Entry where
  id : String
  text : String
deriving DecidableEq, Repr

/-- The JavaScript values that can flow into the selection comparison:
null, undefined, a number (array indices, hence Nat), or a boolean.
selectedIndex starts as null and is only ever set to a row index. -/
inductive JSVal where
  | null
  | undef
  | num (n : Nat)
  | bool (b : Bool)
deriving DecidableEq, Repr

/-- JavaScript loose equality on the embedded value domain, as the
operator of the source in selectedIndex == index: numbers compare by value,
booleans coerce to 0/1 against numbers, null and undefined are loosely
equal to each other and to nothing else. -/
def jsLooseEq : JSVal → JSVal → Bool
  | JSVal.num m, JSVal.num n => m == n
  | JSVal.num m, JSVal.bool b => m == (if b then 1 else 0)
  | JSVal.bool b, JSVal.num n => (if b then 1 else 0) == n
  | JSVal.bool a, JSVal.bool b => a == b
  | JSVal.null, JSVal.null => true
  | JSVal.null, JSVal.undef => true
  | JSVal.undef, JSVal.null => true
  | JSVal.undef, JSVal.undef => true
  | _, _ => false

/-- JavaScript strict equality on the embedded value domain: equal only
when the types match and the payloads are equal; no coercion. -/
def jsStrictEq : JSVal → JSVal → Bool
  | JSVal.num m, JSVal.num n => m == n
  | JSVal.bool a, JSVal.bool b => a == b
  | JSVal.null, JSVal.null => true
  | JSVal.undef, JSVal.undef => true
  | _, _ => false

/-- The comparison the source uses at List.jsx line 28,
isSelected equals selectedIndex == index, with the loose operator. -/
def isSelectedFlag (sel : JSVal) (i : Nat) : Bool :=
  jsLooseEq sel (JSVal.num i)

/-- The items prop as a reference: refId models JavaScript reference
identity (what the useEffect dependency comparison sees), value is the
referenced collection, with none standing for null/undefined. -/
structure ItemsRef where
  refId : Nat
  value : Option (List Entry)
deriving DecidableEq, Repr

/-- The state of one mounted WrappedListComponent instance: the current
items reference, the selectedIndex state variable, and the reference
identity of the useCallback-memoized handleClick function (allocated at
mount, with empty dependency array, hence never replaced). -/
structure ListState where
  items : ItemsRef
  selectedIndex : JSVal
  handlerRef : Nat
deriving DecidableEq, Repr

/-- Mounting the component: useState(null) initialises selectedIndex to
null (the mount-time useEffect run sets it to null again), and the
handleClick reference is allocated once. -/
def mountList (r : ItemsRef) (h : Nat) : ListState :=
  { items := r, selectedIndex := JSVal.null, handlerRef := h }

/-- handleClick from List.jsx lines 12-14: setSelectedIndex(index),
unconditionally. -/
def handleClick (s : ListState) (index : Nat) : ListState :=
  { s with selectedIndex := JSVal.num index }

/-- The two triggers that mutate the state: the items prop being replaced
by a (possibly identical-content) new reference, and a click routed to
handleClick with some index. -/
inductive Event where
  | setItems (r : ItemsRef)
  | click (p : Nat)
deriving DecidableEq, Repr

/-- One state transition. A setItems whose reference differs from the
current one re-runs the useEffect of List.jsx lines 8-10, resetting
selectedIndex to null; re-rendering with the identical reference does
not re-run the effect. A click runs handleClick. The handleClick
reference is never reallocated (useCallback with empty deps). -/
def step (s : ListState) (e : Event) : ListState :=
  match e with
  | Event.setItems r =>
      if r.refId = s.items.refId then { s with items := r }
      else { s with items := r, selectedIndex := JSVal.null }
  | Event.click p => handleClick s p

/-- States reachable by a mounted component instance. -/
inductive Reachable : ListState → Prop where
  | mount : ∀ (r : ItemsRef) (h : Nat), Reachable (mountList r h)
  | step : ∀ (s : ListState) (e : Event), Reachable s → Reachable (step s e)

/-- The props WrappedListComponent passes to one SingleListItem
(List.jsx lines 23-29). -/
structure RowProps where
  onClickHandler : Nat
  text : String
  index : Nat
  isSelected : Bool
deriving DecidableEq, Repr

/-- One rendered SingleListItem element inside the ul: its rendering key
(key is item.id at List.jsx line 24) plus its props. -/
structure RowElement where
  key : String
  props : RowProps
deriving DecidableEq, Repr

/-- What the List render returns: null, or a ul (with its textAlign
style) holding the row elements. -/
inductive RenderOutput where
  | nothing
  | container (textAlign : String) (rows : List RowElement)
deriving DecidableEq, Repr

/-- The element built for one entry at position i:
key is item.id, onClickHandler is handleClick, text is item.text,
index is i, isSelected is selectedIndex == i. -/
def mkRowElement (h : Nat) (sel : JSVal) (i : Nat) (e : Entry) : RowElement :=
  { key := e.id
    props :=
      { onClickHandler := h
        text := e.text
        index := i
        isSelected := isSelectedFlag sel i } }

/-- items.map((item, index) => ...) of List.jsx lines 22-30, with the
running index made explicit. -/
def renderRowsAux (h : Nat) (sel : JSVal) : Nat → List Entry → List RowElement
  | _, [] => []
  | i, e :: rest => mkRowElement h sel i e :: renderRowsAux h sel (i + 1) rest

/-- The body of WrappedListComponent (List.jsx lines 16-32): return null
when items == null or items.length == 0, otherwise the ul with one row
element per entry. -/
def WrappedListComponent (s : ListState) : RenderOutput :=
  match s.items.value with
  | none => RenderOutput.nothing
  | some l =>
      if l.length = 0 then RenderOutput.nothing
      else RenderOutput.container "left" (renderRowsAux s.handlerRef s.selectedIndex 0 l)

/-- The row elements of the render, empty when nothing is rendered. -/
def renderedRows (s : ListState) : List RowElement :=
  match WrappedListComponent s with
  | RenderOutput.nothing => []
  | RenderOutput.container _ rows => rows

def defaultEntry : Entry := { id := "", text := "" }

def defaultRowElement : RowElement := mkRowElement 0 JSVal.null 0 defaultEntry

/-! The row component. -/

/-- The deferred onClick attribute value of the li: the closure
() => onClickHandler(index), recorded as the captured handler reference
and the captured index argument. -/
structure ClickThunk where
  handler : Nat
  arg : Nat
deriving DecidableEq, Repr

/-- One call of a handler with an index argument. -/
structure Invocation where
  handler : Nat
  arg : Nat
deriving DecidableEq, Repr

/-- The li element WrappedSingleListItem returns: background colour,
the onClick thunk, and the text child. -/
structure LiNode where
  backgroundColor : String
  onClick : ClickThunk
  child : String
deriving DecidableEq, Repr

/-- A render result together with the handler invocations the render
itself performed (effects-as-data). -/
structure Rendered where
  node : LiNode
  renderCalls : List Invocation
deriving DecidableEq, Repr

/-- WrappedSingleListItem: backgroundColor is green when isSelected and
red otherwise; onClick stores the deferred thunk () => onClickHandler(index)
without calling it, so the render performs no handler invocation. -/
def WrappedSingleListItem (p : RowProps) : Rendered :=
  { node :=
      { backgroundColor := if p.isSelected then "green" else "red"
        onClick := { handler := p.onClickHandler, arg := p.index }
        child := p.text }
    renderCalls := [] }

/-- Firing the click event of a rendered li executes its onClick thunk:
the stored handler is called with the stored index. -/
def fireClick (n : LiNode) : Invocation :=
  { handler := n.onClick.handler, arg := n.onClick.arg }

/-- Delivering an invocation to the mounted list: an invocation of the
handleClick reference of the list runs handleClick with the given argument;
an invocation of any other function does not touch this state. -/
def applyInv (s : ListState) (inv : Invocation) : ListState :=
  if inv.handler = s.handlerRef then handleClick s inv.arg else s

/-- End-to-end click on the row rendered at position p: render the list,
take the element at p, render it as an li, fire its click, and deliver
the resulting invocation to the list state. -/
def clickRowAt (s : ListState) (p : Nat) : ListState :=
  applyInv s
    (fireClick (WrappedSingleListItem ((renderedRows s).getD p defaultRowElement).props).node)

/-- The shallow prop comparison of the memo wrapper around
WrappedSingleListItem: every prop compared by value, the handler by its
reference identity. -/
def rowPropsShallowEq (p q : RowProps) : Bool :=
  p.onClickHandler == q.onClickHandler && p.text == q.text &&
    p.index == q.index && p.isSelected == q.isSelected

/-- SingleListItem, memo(WrappedSingleListItem): given the previous
props and previously rendered node, a re-render with shallow-equal props
reuses the previous node and skips the render (flag false); otherwise
WrappedSingleListItem runs again (flag true). -/
def SingleListItem (prevProps : RowProps) (prevNode : LiNode) (nextProps : RowProps) :
    LiNode × Bool :=
  if rowPropsShallowEq prevProps nextProps then (prevNode, false)
  else ((WrappedSingleListItem nextProps).node, true)

/-! Row rendering with possibly missing props, and the prop-types
validation layer. -/

/-- The props of WrappedSingleListItem as actually received, each
possibly missing (undefined). -/
structure RawRowProps where
  index : Option Nat
  isSelected : Option Bool
  onClickHandler : Option Nat
  text : Option String
deriving DecidableEq, Repr

/-- The onClick thunk built from possibly-missing props: the closure
captures whatever the destructured props hold, undefined included. -/
structure RawClickThunk where
  handler : Option Nat
  arg : Option Nat
deriving DecidableEq, Repr

/-- The li rendered from possibly-missing props. -/
structure RawLiNode where
  backgroundColor : String
  onClick : RawClickThunk
  child : String
deriving DecidableEq, Repr

/-- Modelled from the spec: the prop-types validation layer (the
prop-types package is not part of this repository) checks the declared
WrappedSingleListItem.propTypes, under which index, isSelected,
onClickHandler and text are all required, and emits one development-time
console warning per missing required prop; it never throws. -/
def rowPropWarnings (p : RawRowProps) : List String :=
  (if p.index.isNone then ["index is marked as required but its value is undefined"] else []) ++
    (if p.isSelected.isNone then
      ["isSelected is marked as required but its value is undefined"] else []) ++
    (if p.onClickHandler.isNone then
      ["onClickHandler is marked as required but its value is undefined"] else []) ++
    (if p.text.isNone then ["text is marked as required but its value is undefined"] else [])

/-- The WrappedSingleListItem body evaluated on possibly-missing props,
with the exception behaviour made explicit: the ternary on an undefined
isSelected takes the falsy branch (red), an undefined text child renders
as nothing, and the closure creation captures undefined values without
calling anything, so every sub-expression is total and the render
returns normally. -/
def renderRowRaw (p : RawRowProps) : Except String RawLiNode :=
  Except.ok
    { backgroundColor := if p.isSelected.getD false then "green" else "red"
      onClick := { handler := p.onClickHandler, arg := p.index }
      child := p.text.getD "" }

/-! Concrete sample data used by the witnesses. -/

def entryA : Entry := { id := "a", text := "Apple" }

def entryB : Entry := { id := "b", text := "Banana" }

def itemsAB : ItemsRef := { refId := 1, value := some [entryA, entryB] }

def itemsABagain : ItemsRef := { refId := 2, value := some [entryA, entryB] }

def itemsNull : ItemsRef := { refId := 3, value := none }

def itemsEmpty : ItemsRef := { refId := 4, value := some [] }

def sampleRowProps : RowProps :=
  { onClickHandler := 7, text := "Apple", index := 0, isSelected := false }

/-! Helper lemmas on the rendered row list. -/

theorem length_renderRowsAux (h : Nat) (sel : JSVal) (st : Nat) (l : List Entry) :
    (renderRowsAux h sel st l).length = l.length := by
  induction l generalizing st with
  | nil => rfl
  | cons e rest ih => simp [renderRowsAux, ih]

theorem getD_renderRowsAux (h : Nat) (sel : JSVal) (st j : Nat) (l : List Entry)
    (hj : j < l.length) :
    (renderRowsAux h sel st l).getD j defaultRowElement =
      mkRowElement h sel (st + j) (l.getD j defaultEntry) := by
  induction l generalizing st j with
  | nil => simp at hj
  | cons e rest ih =>
      cases j with
      | zero => simp [renderRowsAux]
      | succ j =>
          have hj' : j < rest.length := by simpa using hj
          have := ih (st + 1) j hj'
          simpa [renderRowsAux, Nat.add_assoc, Nat.add_comm, Nat.add_left_comm] using this

theorem mem_renderRowsAux (h : Nat) (sel : JSVal) (st : Nat) (l : List Entry)
    (re : RowElement) (hm : re ∈ renderRowsAux h sel st l) :
    ∃ j, j < l.length ∧ re = mkRowElement h sel (st + j) (l.getD j defaultEntry) := by
  induction l generalizing st with
  | nil => simp [renderRowsAux] at hm
  | cons e rest ih =>
      simp only [renderRowsAux, List.mem_cons] at hm
      cases hm with
      | inl heq => exact ⟨0, by simp, by simpa using heq⟩
      | inr hmem =>
          obtain ⟨j, hj, hre⟩ := ih (st + 1) hmem
          exact ⟨j + 1, by simpa using Nat.succ_lt_succ hj,
            by simpa [Nat.add_assoc, Nat.add_comm, Nat.add_left_comm] using hre⟩

theorem renderedRows_eq (s : ListState) (l : List Entry)
    (hv : s.items.value = some l) (hl : l ≠ []) :
    renderedRows s = renderRowsAux s.handlerRef s.selectedIndex 0 l := by
  have hlen : l.length ≠ 0 := Nat.pos_iff_ne_zero.mp (List.length_pos.mpr hl)
  simp [renderedRows, WrappedListComponent, hv, hlen]

theorem reachable_selectedIndex (s : ListState) (hs : Reachable s) :
    s.selectedIndex = JSVal.null ∨ ∃ n, s.selectedIndex = JSVal.num n := by
  induction hs with
  | mount r h => exact Or.inl rfl
  | step s e _ ih =>
      cases e with
      | setItems r =>
          by_cases hr : r.refId = s.items.refId
          · simpa [step, hr] using ih
          · exact Or.inl (by simp [step, hr])
      | click p => exact Or.inr ⟨p, rfl⟩

/-! Claim theorems. -/

/-- Claim C2: for every non-empty items collection, List renders a
container holding exactly one row element per entry, in collection
order, each keyed by the id string of that entry (the key is the id, which
need not be the positional index) and carrying the entry text and its
position. -/
theorem list_renders_one_row_per_entry (s : ListState) (l : List Entry)
    (hv : s.items.value = some l) (hl : l ≠ []) :
    WrappedListComponent s = RenderOutput.container "left" (renderedRows s) ∧
    (renderedRows s).length = l.length ∧
    ∀ i, i < l.length →
      ((renderedRows s).getD i defaultRowElement).key = (l.getD i defaultEntry).id ∧
      ((renderedRows s).getD i defaultRowElement).props.text = (l.getD i defaultEntry).text ∧
      ((renderedRows s).getD i defaultRowElement).props.index = i := by
  have hrows := renderedRows_eq s l hv hl
  have hlen : l.length ≠ 0 := Nat.pos_iff_ne_zero.mp (List.length_pos.mpr hl)
  refine ⟨?_, ?_, ?_⟩
  · simp [WrappedListComponent, hv, hlen, hrows]
  · simp [hrows, length_renderRowsAux]
  · intro i hi
    rw [hrows, getD_renderRowsAux _ _ _ _ _ hi]
    simp [mkRowElement]

/-- Witness for list_renders_one_row_per_entry at a two-entry state. -/
theorem list_renders_one_row_per_entry_witness :
    WrappedListComponent (mountList itemsAB 7) =
      RenderOutput.container "left" (renderedRows (mountList itemsAB 7)) ∧
    (renderedRows (mountList itemsAB 7)).length = [entryA, entryB].length ∧
    ((renderedRows (mountList itemsAB 7)).getD 1 defaultRowElement).key =
      ([entryA, entryB].getD 1 defaultEntry).id := by
  have h := list_renders_one_row_per_entry (mountList itemsAB 7) [entryA, entryB] rfl
    (by decide)
  exact ⟨h.1, h.2.1, (h.2.2 1 (by decide)).1⟩

/-- Claim C3: for items null/undefined or of zero length, List renders
nothing at all, not an empty container. -/
theorem empty_items_render_nothing (s : ListState)
    (h : s.items.value = none ∨ s.items.value = some []) :
    WrappedListComponent s = RenderOutput.nothing := by
  cases h with
  | inl hn => simp [WrappedListComponent, hn]
  | inr he => simp [WrappedListComponent, he]

/-- Witness for empty_items_render_nothing: the null-items state and
the empty-items state. -/
theorem empty_items_render_nothing_witness :
    WrappedListComponent (mountList itemsNull 3) = RenderOutput.nothing ∧
    WrappedListComponent (mountList itemsEmpty 4) = RenderOutput.nothing :=
  ⟨empty_items_render_nothing (mountList itemsNull 3) (Or.inl rfl),
   empty_items_render_nothing (mountList itemsEmpty 4) (Or.inr rfl)⟩

/-- Claim C5: on every reachable state the comparison computing the
isSelected flag of a row (the selectedIndex == index of the source) coincides with
strict, type-matched equality of the selection value and the integer
position: no coercion ever takes effect, because the selection value is
always null or an integer. -/
theorem isSelected_comparison_strict (s : ListState) (hs : Reachable s) (i : Nat) :
    isSelectedFlag s.selectedIndex i = jsStrictEq s.selectedIndex (JSVal.num i) := by
  cases reachable_selectedIndex s hs with
  | inl hn => rw [hn]; rfl
  | inr hn => obtain ⟨n, hn⟩ := hn; rw [hn]; rfl

/-- Witness for isSelected_comparison_strict after a click, reached by
mount then click. -/
theorem isSelected_comparison_strict_witness :
    isSelectedFlag (step (mountList itemsAB 7) (Event.click 1)).selectedIndex 1 =
      jsStrictEq (step (mountList itemsAB 7) (Event.click 1)).selectedIndex (JSVal.num 1) :=
  isSelected_comparison_strict (step (mountList itemsAB 7) (Event.click 1))
    (Reachable.step (mountList itemsAB 7) (Event.click 1)
      (Reachable.mount itemsAB 7)) 1

/-- Claim C7: rendering a row performs no invocation of the click
handler (the render-call log is empty); the handler is invoked only by
firing the click event of the rendered element, and then with exactly
the index of the row as argument. -/
theorem row_render_never_invokes_handler (p : RowProps) :
    (WrappedSingleListItem p).renderCalls = [] ∧
    fireClick (WrappedSingleListItem p).node =
      { handler := p.onClickHandler, arg := p.index } :=
  ⟨rfl, rfl⟩

/-- Claim C9: a missing required row prop produces a development-time
warning only: the warning list is empty exactly when all four required
props are present, and rendering proceeds normally (never an exception)
whatever props are missing. -/
theorem missing_row_props_warn_only (p : RawRowProps) :
    (renderRowRaw p).isOk = true ∧
    (rowPropWarnings p = [] ↔
      (p.index.isSome = true ∧ p.isSelected.isSome = true ∧
        p.onClickHandler.isSome = true ∧ p.text.isSome = true)) := by
  refine ⟨rfl, ?_⟩
  obtain ⟨i, se, oc, t⟩ := p
  cases i <;> cases se <;> cases oc <;> cases t <;> simp [rowPropWarnings]

/-- Claim C1: clicking the rendered row at a valid position p routes
through the onClick thunk of the row into handleClick, the selection state
becomes p, and in the resulting render the row at p has isSelected true
while every row at a different position has isSelected false. -/
theorem click_row_selects_exactly (s : ListState) (l : List Entry) (p : Nat)
    (hv : s.items.value = some l) (hp : p < l.length) :
    (clickRowAt s p).selectedIndex = JSVal.num p ∧
    ((renderedRows (clickRowAt s p)).getD p defaultRowElement).props.isSelected = true ∧
    ∀ i, i < l.length → i ≠ p →
      ((renderedRows (clickRowAt s p)).getD i defaultRowElement).props.isSelected = false := by
  have hl : l ≠ [] := by
    intro h
    rw [h] at hp
    simp at hp
  have hrows := renderedRows_eq s l hv hl
  have hget : (renderedRows s).getD p defaultRowElement =
      mkRowElement s.handlerRef s.selectedIndex p (l.getD p defaultEntry) := by
    rw [hrows]
    simpa using getD_renderRowsAux s.handlerRef s.selectedIndex 0 p l hp
  have hclick : clickRowAt s p = handleClick s p := by
    unfold clickRowAt
    rw [hget]
    simp [WrappedSingleListItem, fireClick, applyInv, mkRowElement]
  have hv2 : (clickRowAt s p).items.value = some l := by rw [hclick]; exact hv
  have hh2 : (clickRowAt s p).handlerRef = s.handlerRef := by rw [hclick]; rfl
  have hs2 : (clickRowAt s p).selectedIndex = JSVal.num p := by rw [hclick]; rfl
  have hrows2 := renderedRows_eq (clickRowAt s p) l hv2 hl
  refine ⟨hs2, ?_, ?_⟩
  · rw [hrows2, hh2, hs2, getD_renderRowsAux _ _ _ _ _ hp]
    simp [mkRowElement, isSelectedFlag, jsLooseEq]
  · intro i hi hip
    rw [hrows2, hh2, hs2, getD_renderRowsAux _ _ _ _ _ hi]
    simp only [mkRowElement, isSelectedFlag, jsLooseEq, Nat.zero_add]
    cases hb : (p == i) with
    | false => rfl
    | true => exact absurd (eq_of_beq hb).symm hip

/-- Witness for click_row_selects_exactly: clicking row 1 of the
two-entry list selects row 1 and deselects row 0. -/
theorem click_row_selects_exactly_witness :
    (clickRowAt (mountList itemsAB 7) 1).selectedIndex = JSVal.num 1 ∧
    ((renderedRows (clickRowAt (mountList itemsAB 7) 1)).getD 1
      defaultRowElement).props.isSelected = true ∧
    ((renderedRows (clickRowAt (mountList itemsAB 7) 1)).getD 0
      defaultRowElement).props.isSelected = false := by
  have h := click_row_selects_exactly (mountList itemsAB 7) [entryA, entryB] 1 rfl (by decide)
  exact ⟨h.1, h.2.1, h.2.2 0 (by decide) (by decide)⟩

/-- Claim C4: selection is null at mount; any replacement of the items
reference by one with a different identity resets selection to null,
whatever its value (identical content included); and no transition other
than such an items-reference change ever moves a non-null selection to
null. -/
theorem selection_resets_only_on_items_change :
    (∀ (r : ItemsRef) (h : Nat), (mountList r h).selectedIndex = JSVal.null) ∧
    (∀ (s : ListState) (r : ItemsRef), r.refId ≠ s.items.refId →
      (step s (Event.setItems r)).selectedIndex = JSVal.null) ∧
    (∀ (s : ListState) (e : Event),
      s.selectedIndex ≠ JSVal.null → (step s e).selectedIndex = JSVal.null →
      ∃ r, e = Event.setItems r ∧ r.refId ≠ s.items.refId) := by
  refine ⟨fun r h => rfl, fun s r hr => by simp [step, hr], ?_⟩
  intro s e hne hnull
  cases e with
  | setItems r =>
      by_cases hr : r.refId = s.items.refId
      · simp [step, hr] at hnull
        exact absurd hnull hne
      · exact ⟨r, rfl, hr⟩
  | click p => simp [step, handleClick] at hnull

/-- Witness for selection_resets_only_on_items_change: mount starts at
null, and replacing the items reference by an identical-content
collection under a fresh reference resets a selected state to null. -/
theorem selection_resets_only_on_items_change_witness :
    (mountList itemsAB 7).selectedIndex = JSVal.null ∧
    (step (handleClick (mountList itemsAB 7) 1)
      (Event.setItems itemsABagain)).selectedIndex = JSVal.null :=
  ⟨selection_resets_only_on_items_change.1 itemsAB 7,
   selection_resets_only_on_items_change.2.1 (handleClick (mountList itemsAB 7) 1)
     itemsABagain (by decide)⟩

/-- Claim C6: the click-handling reference is one single reference: no
transition of the mounted instance changes its identity, and every row
element of any render carries exactly that reference. -/
theorem handleClick_reference_stable :
    (∀ (s : ListState) (e : Event), (step s e).handlerRef = s.handlerRef) ∧
    (∀ (s : ListState) (re : RowElement), re ∈ renderedRows s →
      re.props.onClickHandler = s.handlerRef) := by
  constructor
  · intro s e
    cases e with
    | setItems r => by_cases hr : r.refId = s.items.refId <;> simp [step, hr]
    | click p => rfl
  · intro s re hm
    cases hv : s.items.value with
    | none => simp [renderedRows, WrappedListComponent, hv] at hm
    | some l =>
        by_cases hl : l = []
        · simp [renderedRows, WrappedListComponent, hv, hl] at hm
        · rw [renderedRows_eq s l hv hl] at hm
          obtain ⟨j, hj, hre⟩ := mem_renderRowsAux _ _ _ _ _ hm
          rw [hre]
          rfl

/-- Witness for handleClick_reference_stable: a click step keeps the
handler reference, and row 0 of the sample render carries it. -/
theorem handleClick_reference_stable_witness :
    (step (mountList itemsAB 7) (Event.click 1)).handlerRef =
      (mountList itemsAB 7).handlerRef ∧
    ((renderedRows (mountList itemsAB 7)).getD 0
      defaultRowElement).props.onClickHandler = (mountList itemsAB 7).handlerRef :=
  ⟨handleClick_reference_stable.1 (mountList itemsAB 7) (Event.click 1),
   handleClick_reference_stable.2 (mountList itemsAB 7)
     ((renderedRows (mountList itemsAB 7)).getD 0 defaultRowElement) (by decide)⟩

/-- Claim C8: the row render is a pure function of its props, so
shallow-equal props give an identical rendered node, and the memo
wrapper then reuses the previous node and skips the re-render. -/
theorem row_memo_skips_unchanged (p q : RowProps) (h : rowPropsShallowEq p q = true) :
    (WrappedSingleListItem p).node = (WrappedSingleListItem q).node ∧
    SingleListItem p (WrappedSingleListItem p).node q =
      ((WrappedSingleListItem q).node, false) := by
  have hpq : p = q := by
    obtain ⟨a, b, c, d⟩ := p
    obtain ⟨a2, b2, c2, d2⟩ := q
    simp only [rowPropsShallowEq, Bool.and_eq_true, beq_iff_eq] at h
    obtain ⟨⟨⟨h1, h2⟩, h3⟩, h4⟩ := h
    subst h1; subst h2; subst h3; subst h4
    rfl
  subst hpq
  exact ⟨rfl, by simp [SingleListItem, rowPropsShallowEq]⟩

/-- Witness for row_memo_skips_unchanged at concrete unchanged props. -/
theorem row_memo_skips_unchanged_witness :
    (WrappedSingleListItem sampleRowProps).node =
      (WrappedSingleListItem sampleRowProps).node ∧
    SingleListItem sampleRowProps (WrappedSingleListItem sampleRowProps).node
      sampleRowProps = ((WrappedSingleListItem sampleRowProps).node, false) :=
  row_memo_skips_unchanged sampleRowProps sampleRowProps (by decide)

/-- Claim C10: handleClick performs no range validation, setting the
selection to its argument unconditionally; and when the resulting
selection is outside the rendered range, every rendered row has
isSelected false. -/
theorem handleClick_no_range_validation :
    (∀ (s : ListState) (p : Nat), (handleClick s p).selectedIndex = JSVal.num p) ∧
    (∀ (s : ListState) (l : List Entry) (p : Nat),
      s.items.value = some l → s.selectedIndex = JSVal.num p → l.length ≤ p →
      ∀ re, re ∈ renderedRows s → re.props.isSelected = false) := by
  constructor
  · intro s p
    rfl
  · intro s l p hv hsel hlen re hm
    by_cases hl : l = []
    · simp [renderedRows, WrappedListComponent, hv, hl] at hm
    · rw [renderedRows_eq s l hv hl] at hm
      obtain ⟨j, hj, hre⟩ := mem_renderRowsAux _ _ _ _ _ hm
      rw [hre, hsel]
      simp only [mkRowElement, isSelectedFlag, jsLooseEq, Nat.zero_add]
      cases hb : (p == j) with
      | false => rfl
      | true =>
          have : p = j := eq_of_beq hb
          omega

/-- Witness for handleClick_no_range_validation: selecting position 5
over a two-entry list leaves row 0 unselected. -/
theorem handleClick_no_range_validation_witness :
    (handleClick (mountList itemsAB 7) 5).selectedIndex = JSVal.num 5 ∧
    ((renderedRows (handleClick (mountList itemsAB 7) 5)).getD 0
      defaultRowElement).props.isSelected = false := by
  have h := handleClick_no_range_validation
  refine ⟨h.1 (mountList itemsAB 7) 5, ?_⟩
  exact h.2 (handleClick (mountList itemsAB 7) 5) [entryA, entryB] 5 rfl rfl (by decide)
    ((renderedRows (handleClick (mountList itemsAB 7) 5)).getD 0 defaultRowElement)
    (by decide)

end Steeleye
